import Mathlib

/-!
Shallow embedding of the spacegame ECS core (src/src/main.rs).

Modelling conventions:
* Rust f32 coordinates are modelled by exact rationals.  Every concrete
  coordinate computation claimed by the spec (integer-valued boxes, halving,
  fixed offsets) is exact in f32, so the rational model agrees with the code
  on those inputs.
* u16 / u64 are modelled as Nat together with explicit reduction mod 2^16 /
  2^64 at the operations where overflow or underflow can occur.  In
  particular the unchecked u16 subtraction in Health.take_damage is modelled
  with wrapping semantics (the release-profile behaviour of the Rust code;
  a debug build aborts on the same inputs).
* The immediate-mode drawing surface is modelled by a list of emitted
  drawing commands; a Rust panic (the todo macro on the BOSS arm) is
  modelled as an Except.error result that aborts the rest of the draw call.
-/

/-- EntityID is a u64 type alias in the source (type EntityID = u64). -/
abbrev EntityID := Nat

/-- Raylib Vector2, coordinates modelled as rationals. -/
structure Vector2 where
  x : ℚ
  y : ℚ
deriving DecidableEq

def Vector2.new (x y : ℚ) : Vector2 := ⟨x, y⟩

instance : Sub Vector2 := ⟨fun a b => ⟨a.x - b.x, a.y - b.y⟩⟩

/-- Raylib Rectangle (origin plus size). -/
structure Rectangle where
  x : ℚ
  y : ℚ
  width : ℚ
  height : ℚ
deriving DecidableEq

def Rectangle.new (x y width height : ℚ) : Rectangle := ⟨x, y, width, height⟩

/-- Raylib Color (r, g, b, a bytes). -/
structure Color where
  r : Nat
  g : Nat
  b : Nat
  a : Nat
deriving DecidableEq

def Color.WHITE : Color := ⟨255, 255, 255, 255⟩
def Color.RED : Color := ⟨230, 41, 55, 255⟩
def Color.YELLOW : Color := ⟨253, 249, 0, 255⟩
def Color.BLACK : Color := ⟨0, 0, 0, 255⟩

/-- The 9 anchor points of a rectangle (enum Anchor in the source). -/
inductive Anchor where
  | TopLeft
  | TopCenter
  | TopRight
  | CenterLeft
  | Center
  | CenterRight
  | BottomLeft
  | BottomCenter
  | BottomRight
deriving DecidableEq

/-- Anchor::values from the source: all nine anchors in declaration order. -/
def Anchor.values : List Anchor :=
  [.TopLeft, .TopCenter, .TopRight,
   .CenterLeft, .Center, .CenterRight,
   .BottomLeft, .BottomCenter, .BottomRight]

/-- BoundingBox2D from the source: two corners (x1, y1) and (x2, y2). -/
structure BoundingBox2D where
  x1 : ℚ
  y1 : ℚ
  x2 : ℚ
  y2 : ℚ
deriving DecidableEq

/-- BoundingBox2D::new(x, y, w, h): corner (x, y), opposite corner (x+w, y+h). -/
def BoundingBox2D.new (x y w h : ℚ) : BoundingBox2D :=
  { x1 := x, y1 := y, x2 := x + w, y2 := y + h }

/-- BoundingBox2D::new_v(pos, size). -/
def BoundingBox2D.new_v (pos size : Vector2) : BoundingBox2D :=
  BoundingBox2D.new pos.x pos.y size.x size.y

def BoundingBox2D.width (b : BoundingBox2D) : ℚ := b.x2 - b.x1

def BoundingBox2D.height (b : BoundingBox2D) : ℚ := b.y2 - b.y1

/-- BoundingBox2D::center: (x1 + width * 0.5, y1 + height * 0.5). -/
def BoundingBox2D.center (b : BoundingBox2D) : Vector2 :=
  Vector2.new (b.x1 + b.width * (1/2)) (b.y1 + b.height * (1/2))

/-- BoundingBox2D::calc: resolve one of the nine anchors to a point. -/
def BoundingBox2D.calc (b : BoundingBox2D) (anchor : Anchor) : Vector2 :=
  match anchor with
  | .TopLeft => Vector2.new b.x1 b.y1
  | .TopCenter => Vector2.new (b.x1 + b.width * (1/2)) b.y1
  | .TopRight => Vector2.new b.x2 b.y1
  | .CenterLeft => Vector2.new b.x1 (b.y1 + b.height * (1/2))
  | .Center => b.center
  | .CenterRight => Vector2.new b.x2 (b.y1 + b.height * (1/2))
  | .BottomLeft => Vector2.new b.x1 b.y2
  | .BottomCenter => Vector2.new (b.x1 + b.width * (1/2)) b.y2
  | .BottomRight => Vector2.new b.x2 b.y2

/-- The Into ffi Rectangle conversion: origin corner plus width and height. -/
def BoundingBox2D.toRectangle (b : BoundingBox2D) : Rectangle :=
  { x := b.x1, y := b.y1, width := b.x2 - b.x1, height := b.y2 - b.y1 }

/-- Base2D component: name, bounds, tint, visibility flag. -/
structure Base2D where
  name : String
  bounds : BoundingBox2D
  tint : Color
  visible : Bool
deriving DecidableEq

/-- Base2D::new(pos, size): placeholder name, white tint, visible. -/
def Base2D.new (pos size : Vector2) : Base2D :=
  { name := "Unnamed"
    bounds := BoundingBox2D.new_v pos size
    tint := Color.WHITE
    visible := true }

/-- UIBarStyle from the source. -/
inductive UIBarStyle where
  | HIDDEN
  | INLINE
  | BOSS
deriving DecidableEq

/-- Health component: u16 max health and current health, bar style. -/
structure Health where
  max_health : Nat
  health : Nat
  bar_style : UIBarStyle
deriving DecidableEq

/-- Health::new(health): current = maximum = the argument, inline bar. -/
def Health.new (health : Nat) : Health :=
  { max_health := health, health := health, bar_style := .INLINE }

/-- Wrapping u16 subtraction: for a, b below 2^16 this is the value the Rust
release profile stores after the unchecked u16 expression a -= b (a debug
build aborts when b exceeds a). -/
def wsub16 (a b : Nat) : Nat := (a + (65536 - b % 65536)) % 65536

/-- Health::take_damage(amount): unchecked u16 subtraction on current health. -/
def Health.take_damage (s : Health) (amount : Nat) : Health :=
  { s with health := wsub16 s.health amount }

/-- A drawing command emitted to the immediate-mode drawing surface. -/
inductive DrawCmd where
  | rectangleLinesEx (rect : Rectangle) (thick : ℚ) (color : Color)
  | circleV (center : Vector2) (radius : ℚ) (color : Color)
deriving DecidableEq

/-- World from the source: entity counter plus one store per component kind. -/
structure World where
  last_entity : Nat
  base_components : List (EntityID × Base2D)
  health_components : List (EntityID × Health)

/-- World::new. -/
def World.new : World :=
  { last_entity := 0, base_components := [], health_components := [] }

/-- World::new_entity: increment the u64 counter and return the new value. -/
def World.new_entity (w : World) : World × EntityID :=
  let n := (w.last_entity + 1) % 2 ^ 64
  ({ w with last_entity := n }, n)

/-- Identities returned by n successive new_entity calls, in call order. -/
def allocIds : World → Nat → List EntityID
  | _, 0 => []
  | w, n + 1 =>
    let p := w.new_entity
    p.2 :: allocIds p.1 n

/-- Vec::push on a component store: append the pair at the end. -/
def attach (store : List (EntityID × α)) (e : EntityID) (c : α) :
    List (EntityID × α) :=
  store ++ [(e, c)]

/-- Drawing commands Base2D::draw_system emits for one stored component:
the bounds outline in the component tint, then a small red marker at each
of the nine anchors. -/
def base2DCmds (base : Base2D) : List DrawCmd :=
  DrawCmd.rectangleLinesEx base.bounds.toRectangle 1 base.tint ::
    Anchor.values.map (fun anchor => DrawCmd.circleV (base.bounds.calc anchor) 2 Color.RED)

/-- Base2D::draw_system over the whole world: every stored component is
processed in order (the visible flag is never consulted). -/
def base2DDrawSystem (w : World) : List DrawCmd :=
  w.base_components.flatMap (fun b => base2DCmds b.2)

/-- The join in Health::draw_system: for each base-store pair, find the first
health-store pair with the same entity id; entries without a match are
dropped by filter_map. -/
def joinedPairs (bases : List (EntityID × Base2D))
    (healths : List (EntityID × Health)) : List (Base2D × Health) :=
  bases.filterMap (fun b =>
    (healths.find? (fun h => b.1 == h.1)).map (fun h => (b.2, h.2)))

/-- Commands emitted for one joined (base, health) pair, per bar style.
The BOSS arm is the todo macro in the source: a Rust panic, modelled as an
error that aborts the draw call (the process, in the actual build). -/
def drawBar (b : Base2D) (h : Health) : Except String (List DrawCmd) :=
  match h.bar_style with
  | .INLINE =>
    let w : ℚ := 80
    let ht : ℚ := 10
    let top_center := b.bounds.calc .TopCenter - Vector2.new 0 20
    let rect := Rectangle.new (top_center.x - w * (1/2)) (top_center.y - ht * (1/2)) w ht
    .ok [DrawCmd.rectangleLinesEx rect 1 Color.WHITE]
  | .BOSS => .error "not yet implemented"
  | _ => .ok []

/-- Run drawBar over every joined pair in order; a panic aborts the rest. -/
def drawBars : List (Base2D × Health) → Except String (List DrawCmd)
  | [] => .ok []
  | (b, h) :: rest => do
    let cmds ← drawBar b h
    let restCmds ← drawBars rest
    pure (cmds ++ restCmds)

/-- Health::draw_system over the whole world. -/
def healthDrawSystem (w : World) : Except String (List DrawCmd) :=
  drawBars (joinedPairs w.base_components w.health_components)

/-- Modelled from the spec (section 4.3 and section 8): the join written as
"exactly the entities present in both stores", first-match semantics — each
presentation entry whose entity id occurs in the vitals store is paired with
the first matching vitals entry; all others are excluded. -/
def joinSpecOfWords (bases : List (EntityID × Base2D))
    (healths : List (EntityID × Health)) : List (Base2D × Health) :=
  bases.filterMap (fun b =>
    ((healths.filter (fun h => b.1 == h.1)).head?).map (fun h => (b.2, h.2)))

/-- Center of a rectangle given as origin plus size. -/
def rectCenter (r : Rectangle) : Vector2 :=
  Vector2.new (r.x + r.width * (1/2)) (r.y + r.height * (1/2))

/-! Helper lemmas shared by the claim theorems. -/

theorem Vector2.sub_def (a b : Vector2) : a - b = ⟨a.x - b.x, a.y - b.y⟩ := rfl

theorem find?_eq_head?_filter {α : Type} (p : α → Bool) (l : List α) :
    l.find? p = (l.filter p).head? := by
  induction l with
  | nil => rfl
  | cons a l ih =>
    by_cases hpa : p a
    · rw [List.find?_cons_of_pos _ hpa, List.filter_cons_of_pos hpa, List.head?_cons]
    · rw [List.find?_cons_of_neg _ hpa, List.filter_cons_of_neg hpa, ih]

theorem allocIds_eq_range' (n : Nat) :
    ∀ (w : World), w.last_entity + n < 2 ^ 64 →
      allocIds w n = List.range' (w.last_entity + 1) n := by
  induction n with
  | zero => intro w _; rfl
  | succ n ih =>
    intro w hw
    have h1 : w.last_entity + 1 < 2 ^ 64 := by omega
    have hmod : (w.last_entity + 1) % 2 ^ 64 = w.last_entity + 1 :=
      Nat.mod_eq_of_lt h1
    have ihw := ih { w with last_entity := (w.last_entity + 1) % 2 ^ 64 }
      (by simp only [hmod]; omega)
    rw [hmod] at ihw
    have step : allocIds w (n + 1) =
        ((w.last_entity + 1) % 2 ^ 64) ::
          allocIds { w with last_entity := (w.last_entity + 1) % 2 ^ 64 } n := rfl
    rw [step, hmod, ihw]
    rfl

/-- C10: the Health constructor sets current health equal to maximum health
equal to its argument and bar style INLINE, so current ≤ maximum holds
immediately after construction. -/
theorem health_new_invariant (h : Nat) :
    (Health.new h).health = h ∧ (Health.new h).max_health = h ∧
    (Health.new h).bar_style = .INLINE ∧
    (Health.new h).health ≤ (Health.new h).max_health :=
  ⟨rfl, rfl, rfl, Nat.le_refl _⟩

/-- C1 (code evaluated at the failing input): take_damage subtracts exactly
when amount < current health, but for amount greater than current health the
unchecked u16 subtraction wraps (release profile) instead of clamping to 0:
with current health 5 and damage 10 the stored health is 65531, which is not
0 and exceeds the maximum health. -/
theorem take_damage_wraps_below_zero :
    ((Health.new 20).take_damage 5).health = 15 ∧
    ((Health.new 5).take_damage 10).health = 65531 ∧
    ((Health.new 5).take_damage 10).health ≠ 0 ∧
    (Health.new 5).max_health < ((Health.new 5).take_damage 10).health := by
  decide

/-- C2 (code evaluated at the failing input): a joined pair with bar style
BOSS makes the draw system hit the todo macro, modelled here as the error
result carrying the panic message; in the built program this is a Rust
panic that aborts the process, not a recoverable unimplemented signal. -/
theorem boss_bar_aborts_draw :
    drawBar (Base2D.new (Vector2.new 400 380) (Vector2.new 76 48))
        { Health.new 20 with bar_style := .BOSS } =
      .error "not yet implemented" ∧
    healthDrawSystem
        { last_entity := 1
          base_components :=
            [(1, Base2D.new (Vector2.new 400 380) (Vector2.new 76 48))]
          health_components :=
            [(1, { Health.new 20 with bar_style := .BOSS })] } =
      .error "not yet implemented" := by
  exact ⟨rfl, rfl⟩

/-- C3: the counter of a fresh World is 0; n successive new_entity calls on
it return exactly 1, 2, ..., n, so the first call returns 1, every returned
identity is nonzero, and the identities are strictly increasing and pairwise
distinct (no reuse), as long as the u64 counter cannot wrap. -/
theorem new_entity_ids (n : Nat) (hn : n < 2 ^ 64) :
    World.new.last_entity = 0 ∧
    allocIds World.new n = List.range' 1 n ∧
    (allocIds World.new n).Pairwise (· < ·) ∧
    (∀ e ∈ allocIds World.new n, e ≠ 0) ∧
    (World.new.new_entity).2 = 1 := by
  have h : allocIds World.new n = List.range' 1 n := by
    have h0 := allocIds_eq_range' n World.new (by simp [World.new]; omega)
    simpa [World.new] using h0
  refine ⟨rfl, h, ?_, ?_, rfl⟩
  · rw [h]; exact List.pairwise_lt_range' 1 n
  · intro e he
    rw [h] at he
    exact Nat.one_le_iff_ne_zero.mp (List.mem_range'_1.mp he).1

/-- Witness for C3 at n = 3. -/
theorem new_entity_ids_witness :
    3 < 2 ^ 64 ∧
    (World.new.last_entity = 0 ∧
      allocIds World.new 3 = List.range' 1 3 ∧
      (allocIds World.new 3).Pairwise (· < ·) ∧
      (∀ e ∈ allocIds World.new 3, e ≠ 0) ∧
      (World.new.new_entity).2 = 1) :=
  ⟨by norm_num, new_entity_ids 3 (by norm_num)⟩

/-- C5: component attachment appends the pair at the end of the store, so
attaching A then B then C yields iteration order A, B, C after whatever was
already stored; the store only ever grows, and nothing prevents two entries
with the same entity id (taking e1 = e2 below, both pairs appear). -/
theorem attach_append_only {α : Type} (s : List (EntityID × α))
    (e1 e2 e3 : EntityID) (c1 c2 c3 : α) :
    attach (attach (attach s e1 c1) e2 c2) e3 c3 =
      s ++ [(e1, c1), (e2, c2), (e3, c3)] ∧
    (attach s e1 c1).length = s.length + 1 := by
  constructor
  · simp [attach]
  · simp [attach]

/-- C6: anchor resolution on the box with corners (0,0) and (100,50) yields
the nine exact points of the spec table; calc is a pure function. -/
theorem anchor_resolution_exact :
    (BoundingBox2D.new 0 0 100 50).calc .TopLeft = Vector2.new 0 0 ∧
    (BoundingBox2D.new 0 0 100 50).calc .TopCenter = Vector2.new 50 0 ∧
    (BoundingBox2D.new 0 0 100 50).calc .TopRight = Vector2.new 100 0 ∧
    (BoundingBox2D.new 0 0 100 50).calc .CenterLeft = Vector2.new 0 25 ∧
    (BoundingBox2D.new 0 0 100 50).calc .Center = Vector2.new 50 25 ∧
    (BoundingBox2D.new 0 0 100 50).calc .CenterRight = Vector2.new 100 25 ∧
    (BoundingBox2D.new 0 0 100 50).calc .BottomLeft = Vector2.new 0 50 ∧
    (BoundingBox2D.new 0 0 100 50).calc .BottomCenter = Vector2.new 50 50 ∧
    (BoundingBox2D.new 0 0 100 50).calc .BottomRight = Vector2.new 100 50 := by
  refine ⟨?_, ?_, ?_, ?_, ?_, ?_, ?_, ?_, ?_⟩ <;>
    simp [BoundingBox2D.new, BoundingBox2D.calc, BoundingBox2D.center,
      BoundingBox2D.width, BoundingBox2D.height, Vector2.new] <;> norm_num

/-- C7: a box built from origin (x, y) and size (w, h) has width w, height h
and center (x + w/2, y + h/2); when the size is non-negative, width and
height are non-negative. -/
theorem box_construction_dims (x y w h : ℚ) (hw : 0 ≤ w) (hh : 0 ≤ h) :
    (BoundingBox2D.new x y w h).width = w ∧
    (BoundingBox2D.new x y w h).height = h ∧
    (BoundingBox2D.new x y w h).center = Vector2.new (x + w / 2) (y + h / 2) ∧
    0 ≤ (BoundingBox2D.new x y w h).width ∧
    0 ≤ (BoundingBox2D.new x y w h).height := by
  have hwid : (BoundingBox2D.new x y w h).width = w := by
    simp [BoundingBox2D.new, BoundingBox2D.width]
  have hhei : (BoundingBox2D.new x y w h).height = h := by
    simp [BoundingBox2D.new, BoundingBox2D.height]
  refine ⟨hwid, hhei, ?_, by rw [hwid]; exact hw, by rw [hhei]; exact hh⟩
  simp only [BoundingBox2D.center, BoundingBox2D.new, BoundingBox2D.width,
    BoundingBox2D.height, Vector2.new, Vector2.mk.injEq]
  constructor <;> ring

/-- Witness for C7 at the box of the player entity: origin (100, 280),
size (36, 48). -/
theorem box_construction_dims_witness :
    (0 : ℚ) ≤ 36 ∧ (0 : ℚ) ≤ 48 ∧
    ((BoundingBox2D.new 100 280 36 48).width = 36 ∧
      (BoundingBox2D.new 100 280 36 48).height = 48 ∧
      (BoundingBox2D.new 100 280 36 48).center =
        Vector2.new (100 + 36 / 2) (280 + 48 / 2) ∧
      0 ≤ (BoundingBox2D.new 100 280 36 48).width ∧
      0 ≤ (BoundingBox2D.new 100 280 36 48).height) :=
  ⟨by norm_num, by norm_num,
    box_construction_dims 100 280 36 48 (by norm_num) (by norm_num)⟩

/-- C4: the draw-system join produces exactly the entities present in both
stores — it equals the spec-worded join (first matching vitals entry for
each presentation entry whose id occurs in the vitals store), and its length
counts precisely the presentation entries whose entity id is in the vitals
store, so presentation-only entities are skipped and a lookup miss is
handled totally, not as an error. -/
theorem join_exactly_shared_entities (bases : List (EntityID × Base2D))
    (healths : List (EntityID × Health)) :
    joinedPairs bases healths = joinSpecOfWords bases healths ∧
    (joinedPairs bases healths).length =
      bases.countP (fun b => decide (b.1 ∈ healths.map Prod.fst)) := by
  constructor
  · unfold joinedPairs joinSpecOfWords
    simp only [find?_eq_head?_filter]
  · induction bases with
    | nil => rfl
    | cons b bs ih =>
      unfold joinedPairs at ih ⊢
      rw [List.filterMap_cons]
      cases hf : healths.find? (fun h => b.1 == h.1) with
      | none =>
        have hmem : b.1 ∉ healths.map Prod.fst := by
          intro hm
          obtain ⟨q, hq, hfst⟩ := List.mem_map.mp hm
          have hnone := List.find?_eq_none.mp hf q hq
          rw [hfst] at hnone
          simp at hnone
        simp [List.countP_cons, hmem, ih]
      | some q =>
        have hq : b.1 = q.1 := by
          have := List.find?_some hf
          simpa using this
        have hmem : b.1 ∈ healths.map Prod.fst := by
          exact List.mem_map.mpr ⟨q, List.mem_of_find?_eq_some hf, hq.symm⟩
        simp [List.countP_cons, hmem, ih]

/-- C8: for every joined pair with bar style INLINE, the draw system emits
exactly one command — an outlined rectangle (no fill) of size 80 by 10 whose
center is the TopCenter anchor of the entity bounds moved up by 20 units. -/
theorem inline_bar_emission (b : Base2D) (h : Health)
    (hs : h.bar_style = .INLINE) :
    ∃ r : Rectangle,
      drawBar b h = .ok [DrawCmd.rectangleLinesEx r 1 Color.WHITE] ∧
      rectCenter r = b.bounds.calc .TopCenter - Vector2.new 0 20 ∧
      r.width = 80 ∧ r.height = 10 := by
  refine ⟨Rectangle.new ((b.bounds.calc .TopCenter - Vector2.new 0 20).x - 80 * (1/2))
      ((b.bounds.calc .TopCenter - Vector2.new 0 20).y - 10 * (1/2)) 80 10,
    ?_, ?_, rfl, rfl⟩
  · simp [drawBar, hs]
  · simp only [rectCenter, Rectangle.new, Vector2.sub_def, Vector2.new,
      Vector2.mk.injEq]
    constructor <;> ring

/-- Witness for C8 at the player entity: bounds from origin (100, 280) and
size (36, 48), health 20 (whose constructor picks the INLINE style). -/
theorem inline_bar_emission_witness :
    (Health.new 20).bar_style = .INLINE ∧
    (∃ r : Rectangle,
      drawBar (Base2D.new (Vector2.new 100 280) (Vector2.new 36 48))
          (Health.new 20) = .ok [DrawCmd.rectangleLinesEx r 1 Color.WHITE] ∧
      rectCenter r =
        (Base2D.new (Vector2.new 100 280) (Vector2.new 36 48)).bounds.calc
            .TopCenter - Vector2.new 0 20 ∧
      r.width = 80 ∧ r.height = 10) :=
  ⟨rfl, inline_bar_emission _ _ rfl⟩

/-- C9: the presentation draw system never consults the visible flag — for
any component, flipping visibility leaves the emitted commands unchanged,
and even an invisible component still yields its outline in its own tint
followed by the nine red anchor markers; the system processes every stored
component this way. -/
theorem base_draw_ignores_visibility (b : Base2D) (v : Bool)
    (le : Nat) (bs : List (EntityID × Base2D)) (hs : List (EntityID × Health)) :
    base2DCmds { b with visible := v } = base2DCmds b ∧
    base2DCmds { b with visible := false } =
      DrawCmd.rectangleLinesEx b.bounds.toRectangle 1 b.tint ::
        Anchor.values.map
          (fun anchor => DrawCmd.circleV (b.bounds.calc anchor) 2 Color.RED) ∧
    Anchor.values.length = 9 ∧
    base2DDrawSystem
        { last_entity := le
          base_components := bs
          health_components := hs } =
      bs.flatMap (fun p => base2DCmds p.2) :=
  ⟨rfl, rfl, rfl, rfl⟩
